import Mathlib

/-!
Verification of the rating-prediction engine of this repository.

The repository's training script delegates the recommender core (rating
store, train/test splitter, latent-factor model, SGD trainer, evaluator,
model persistence) to third-party library calls; the specification gives
the replacement design of that core.  The components below are therefore
modelled from the specification where the repository has no own code for
them, while the parts the repository does implement itself (the SQLite
`user_ratings` table with its UNIQUE constraint and `INSERT OR IGNORE`
insertion, the rating clamp of the synthetic-data generator, and the
`load_ratings` query) are embedded directly from the source.

Real numbers are modelled by the rationals `ℚ`, so that every definition
is executable and equalities are decidable; "bit-for-bit equality of
stored floating values" becomes equality of the stored rationals.
-/

namespace Recommender

/-- A raw rating observation as it enters the core: external user and item
identifiers, a rating value, and an optional timestamp. -/
structure RatingObs where
  userId : Nat
  itemId : Nat
  rating : ℚ
  timestamp : Option Nat
deriving DecidableEq, Repr

/-- An indexed rating observation, after the identifier-to-dense-index
mapping has been applied: `(user_index, item_index, rating)`. -/
structure Obs where
  u : Nat
  i : Nat
  r : ℚ
deriving DecidableEq, Repr

/-- Modelled from the spec: the Factor Model parameterization — a global
bias, per-user and per-item bias scalars, and per-user and per-item latent
vectors of dimension `k`. -/
structure FactorModel where
  k : Nat
  globalBias : ℚ
  userBias : List ℚ
  itemBias : List ℚ
  userFactors : List (List ℚ)
  itemFactors : List (List ℚ)
deriving DecidableEq, Repr

/-- Dot product of two factor vectors (missing tail components contribute
nothing, matching the cold-start fallback where an unseen side has an
empty factor vector). -/
def dot (xs ys : List ℚ) : ℚ :=
  (List.zipWith (· * ·) xs ys).sum

/-- Bias lookup with cold-start default: an index outside the known range
contributes a zero bias. -/
def getB (l : List ℚ) (i : Nat) : ℚ := l.getD i 0

/-- Factor-vector lookup with cold-start default: an index outside the
known range contributes an empty factor vector (hence a zero dot
product). -/
def getF (l : List (List ℚ)) (i : Nat) : List ℚ := l.getD i []

/-- Modelled from the spec: `predict(user_index, item_index)` is
`global_bias + user_bias[u] + item_bias[i] + dot(user_factors[u],
item_factors[i])`, total on all index pairs — out-of-range indices fall
back to zero bias and an empty factor vector instead of failing. -/
def predict (m : FactorModel) (u i : Nat) : ℚ :=
  m.globalBias + getB m.userBias u + getB m.itemBias i +
    dot (getF m.userFactors u) (getF m.itemFactors i)

/-- Clamp a raw prediction into the rating scale `[lo, hi]`. -/
def clamp (lo hi x : ℚ) : ℚ := max lo (min hi x)

/-- Errors of the data-validation layer. -/
inductive DataError
  | emptyStore
  | degenerateUsers
  | degenerateItems
  | ratingOutOfScale
  | duplicateObservation
  | emptyHeldout
  | emptyRatings
deriving DecidableEq, Repr

/-- The frozen output of the Rating Store: the identifier lists (a user's
or item's dense index is its position in the list) together with the
observations rewritten to dense indices. -/
structure Frozen where
  userIds : List Nat
  itemIds : List Nat
  obs : List Obs
deriving DecidableEq, Repr

/-- Position of an external identifier in a frozen identifier list. -/
def idxOf (ids : List Nat) (x : Nat) : Nat := ids.indexOf x

/-- The distinct user identifiers of a list of observations, in first-seen
order. -/
def userIdsOf (raw : List RatingObs) : List Nat := (raw.map (·.userId)).dedup

/-- The distinct item identifiers of a list of observations, in first-seen
order. -/
def itemIdsOf (raw : List RatingObs) : List Nat := (raw.map (·.itemId)).dedup

/-- Modelled from the spec: `finalize()` of the Rating Store (absent from
the repository, which hands the raw frame straight to a library) freezes
the identifier-to-index mapping and fails with a `DataError` when the
store is empty or has fewer than 2 distinct users or fewer than 2
distinct items. -/
def finalize (raw : List RatingObs) : Except DataError Frozen :=
  if raw.isEmpty then .error .emptyStore
  else if (userIdsOf raw).length < 2 then .error .degenerateUsers
  else if (itemIdsOf raw).length < 2 then .error .degenerateItems
  else .ok ⟨userIdsOf raw, itemIdsOf raw,
    raw.map (fun o => ⟨idxOf (userIdsOf raw) o.userId,
                       idxOf (itemIdsOf raw) o.itemId, o.rating⟩)⟩

/-- One step of a linear congruential pseudo-random generator (the
explicit seeded random stream that replaces shared global RNG state). -/
def lcg (s : Nat) : Nat := (1664525 * s + 1013904223) % 4294967296

/-- The `n`-th word of the pseudo-random stream seeded by `seed`. -/
def lcgStream (seed n : Nat) : Nat := lcg^[n + 1] seed

/-- Modelled from the spec: a seeded pseudo-random permutation
("Fisher–Yates or equivalent"); implemented as the equivalent key-sort
shuffle — each position is tagged with a pseudo-random key drawn from the
seeded stream and the list is stably sorted by key. -/
def shuffle (xs : List α) (seed : Nat) : List α :=
  (((xs.enum).map (fun p => (lcgStream seed p.1, p.2))).insertionSort
    (fun a b => a.1 ≤ b.1)).map (·.2)

/-- Number of held-out observations for a dataset of size `n` and
held-out ratio `ratio`: the remainder after the first `(1-ratio)`
fraction is taken for training, i.e. `⌈ratio * n⌉` elements. -/
def heldoutCount (n : Nat) (ratio : ℚ) : Nat := ⌈ratio * n⌉₊

/-- Modelled from the spec: `split(observations, ratio, seed)` shuffles
the observations with the seeded permutation, takes the first `(1-ratio)`
fraction as the training set and the remainder as the held-out set, and
fails with a `DataError` when the held-out set would be empty. -/
def split (xs : List α) (ratio : ℚ) (seed : Nat) :
    Except DataError (List α × List α) :=
  if heldoutCount xs.length ratio = 0 then .error .emptyHeldout
  else .ok ((shuffle xs seed).take (xs.length - heldoutCount xs.length ratio),
            (shuffle xs seed).drop (xs.length - heldoutCount xs.length ratio))

/-- Modelled from the spec: the immutable training configuration. -/
structure TrainConfig where
  epochs : Nat
  k : Nat
  lr : ℚ
  regBias : ℚ
  regFactor : ℚ
  testRatio : ℚ
  seed : Nat
deriving DecidableEq, Repr

/-- The finiteness bound of the scalar model: IEEE double overflow is
modelled as a rational whose magnitude reaches `2^1024`, the smallest
power of two not representable as a finite double. -/
def maxFinite : ℚ := ((2 ^ 1024 : ℕ) : ℚ)

/-- A model scalar is finite when its magnitude stays below the overflow
bound; divergence is detected the moment an updated scalar leaves this
range. -/
def isFiniteQ (x : ℚ) : Bool := |x| < maxFinite

/-- A reference to one scalar parameter of the Factor Model, used to name
the offending parameter on numeric divergence. -/
inductive ParamRef
  | globalBias
  | userBias (u : Nat)
  | itemBias (i : Nat)
  | userFactor (u d : Nat)
  | itemFactor (i d : Nat)
deriving DecidableEq, Repr

/-- The scalar of a model a `ParamRef` points at. -/
def scalarAt (m : FactorModel) : ParamRef → ℚ
  | .globalBias => m.globalBias
  | .userBias u => getB m.userBias u
  | .itemBias i => getB m.itemBias i
  | .userFactor u d => (getF m.userFactors u).getD d 0
  | .itemFactor i d => (getF m.itemFactors i).getD d 0

/-- Diagnostic payload of a `NumericDivergenceError`: the offending
parameter, the epoch, and the observation index within the epoch. -/
structure DivergeInfo where
  param : ParamRef
  epoch : Nat
  obsIdx : Nat
deriving DecidableEq, Repr

/-- Modelled from the spec: one SGD update for observation `(u, i, r)`.
The error uses the unclamped prediction; biases and both factor vectors
are updated from the same pre-step snapshot (the simultaneous variant the
spec allows, fixed here as the documented choice). -/
def sgdUpdate (cfg : TrainConfig) (m : FactorModel) (o : Obs) : FactorModel :=
  let e := o.r - predict m o.u o.i
  let ub := getB m.userBias o.u
  let ib := getB m.itemBias o.i
  let uf := getF m.userFactors o.u
  let itf := getF m.itemFactors o.i
  { m with
    globalBias := m.globalBias + cfg.lr * e
    userBias := m.userBias.set o.u (ub + cfg.lr * (e - cfg.regBias * ub))
    itemBias := m.itemBias.set o.i (ib + cfg.lr * (e - cfg.regBias * ib))
    userFactors := m.userFactors.set o.u
      (List.zipWith (fun x y => x + cfg.lr * (e * y - cfg.regFactor * x)) uf itf)
    itemFactors := m.itemFactors.set o.i
      (List.zipWith (fun y x => y + cfg.lr * (e * x - cfg.regFactor * y)) itf uf) }

/-- Index of the first non-finite scalar of a vector, if any. -/
def firstNonFinite : List ℚ → Option Nat
  | [] => none
  | x :: xs => if isFiniteQ x then (firstNonFinite xs).map (· + 1) else some 0

/-- Modelled from the spec: one checked SGD step — after the update, every
scalar the step wrote is tested for finiteness and the first non-finite
one (if any) aborts the step, naming the offending parameter; divergence
is never clamped away. -/
def sgdStep (cfg : TrainConfig) (m : FactorModel) (o : Obs) :
    Except ParamRef FactorModel :=
  let m2 := sgdUpdate cfg m o
  if isFiniteQ m2.globalBias then
    if isFiniteQ (getB m2.userBias o.u) then
      if isFiniteQ (getB m2.itemBias o.i) then
        match firstNonFinite (getF m2.userFactors o.u) with
        | some d => .error (.userFactor o.u d)
        | none =>
          match firstNonFinite (getF m2.itemFactors o.i) with
          | some d => .error (.itemFactor o.i d)
          | none => .ok m2
      else .error (.itemBias o.i)
    else .error (.userBias o.u)
  else .error .globalBias

/-- Run the checked SGD steps of one epoch over an already-shuffled
observation list, threading the observation index for diagnostics. -/
def runObs (cfg : TrainConfig) (epoch : Nat) :
    FactorModel → List Obs → Nat → Except DivergeInfo FactorModel
  | m, [], _ => .ok m
  | m, o :: os, idx =>
    match sgdStep cfg m o with
    | .error p => .error ⟨p, epoch, idx⟩
    | .ok m2 => runObs cfg epoch m2 os (idx + 1)

/-- Mean squared error of the model's unclamped predictions over a rating
set (the square root giving the spec's RMSE is irrational in general and
is not stored; the trace records the radicand). -/
def mseOf (m : FactorModel) (rs : List Obs) : ℚ :=
  ((rs.map (fun o => (o.r - predict m o.u o.i) ^ 2)).sum) / rs.length

/-- Modelled from the spec: the epoch loop of the Trainer. Each epoch
shuffles the training observations with the configured seed plus the
epoch index, runs the checked SGD steps in order, and appends the
held-out error to the per-epoch trace. -/
def runEpochs (cfg : TrainConfig) (trainObs heldout : List Obs) :
    Nat → FactorModel → List ℚ → Except DivergeInfo (FactorModel × List ℚ)
  | 0, m, trace => .ok (m, trace.reverse)
  | Nat.succ rem, m, trace =>
    let epoch := cfg.epochs - rem
    match runObs cfg epoch m (shuffle trainObs (cfg.seed + epoch)) 0 with
    | .error info => .error info
    | .ok m2 => runEpochs cfg trainObs heldout rem m2 (mseOf m2 heldout :: trace)

/-- A small pseudo-random initial factor component in `[-1/10, 1/10]`,
drawn from the seeded stream (the spec's fixed-seed Gaussian of mean 0
and small standard deviation, modelled by a seeded bounded stream since
an exact Gaussian has no rational sampler). -/
def smallRand (seed n : Nat) : ℚ := ((lcgStream seed n % 201 : Nat) : ℚ) / 1000 - 1 / 10

/-- Modelled from the spec: initial model state — biases zero, the global
bias the mean training rating, and every factor component drawn
independently from the seeded stream. -/
def initModel (cfg : TrainConfig) (nUsers nItems : Nat) (trainObs : List Obs) :
    FactorModel :=
  { k := cfg.k
    globalBias := ((trainObs.map (·.r)).sum) / trainObs.length
    userBias := List.replicate nUsers 0
    itemBias := List.replicate nItems 0
    userFactors := (List.range nUsers).map
      (fun u => (List.range cfg.k).map (fun d => smallRand cfg.seed (u * cfg.k + d)))
    itemFactors := (List.range nItems).map
      (fun i => (List.range cfg.k).map
        (fun d => smallRand cfg.seed (nUsers * cfg.k + i * cfg.k + d))) }

/-- Modelled from the spec: the Trainer — initialize the model from the
seed and the training set, then run the epoch loop, producing the trained
model and the per-epoch error trace, or a `NumericDivergenceError`
diagnostic. -/
def trainModel (cfg : TrainConfig) (nUsers nItems : Nat)
    (trainObs heldout : List Obs) : Except DivergeInfo (FactorModel × List ℚ) :=
  runEpochs cfg trainObs heldout cfg.epochs (initModel cfg nUsers nItems trainObs) []

/-- Error metrics of the Evaluator: mean squared error (the radicand of
the spec's RMSE), mean absolute error, and the number of ratings. -/
structure EvalMetrics where
  mse : ℚ
  mae : ℚ
  count : Nat
deriving DecidableEq, Repr

/-- Modelled from the spec: `evaluate(model, ratings)` — fails with a
`DataError` on an empty rating set; uses unclamped predictions unless the
`clamped` flag is passed, in which case each prediction is clamped to the
rating scale `[lo, hi]` before the errors are computed. -/
def evaluate (m : FactorModel) (lo hi : ℚ) (rs : List Obs) (clamped : Bool) :
    Except DataError EvalMetrics :=
  match rs with
  | [] => .error .emptyRatings
  | _ :: _ =>
    let p := fun o : Obs =>
      if clamped then clamp lo hi (predict m o.u o.i) else predict m o.u o.i
    .ok ⟨((rs.map (fun o => (o.r - p o) ^ 2)).sum) / rs.length,
         ((rs.map (fun o => |o.r - p o|)).sum) / rs.length,
         rs.length⟩

/-- The Evaluator's default mode: no `clamped` flag passed, predictions
used unclamped (matching the training-time loss). -/
def evaluateDefault (m : FactorModel) (lo hi : ℚ) (rs : List Obs) :
    Except DataError EvalMetrics :=
  evaluate m lo hi rs false

/-- Errors of a whole training run. -/
inductive TrainError
  | data (e : DataError)
  | diverge (info : DivergeInfo)
deriving DecidableEq, Repr

/-- Modelled from the spec: the end-to-end training pipeline of the
training entry point — finalize the store, split off the held-out set,
train; any data error or divergence aborts the run before a model is
produced. -/
def trainPipeline (cfg : TrainConfig) (raw : List RatingObs) :
    Except TrainError (FactorModel × List ℚ) :=
  match finalize raw with
  | .error e => .error (.data e)
  | .ok fr =>
    match split fr.obs cfg.testRatio cfg.seed with
    | .error e => .error (.data e)
    | .ok (tr, ho) =>
      match trainModel cfg fr.userIds.length fr.itemIds.length tr ho with
      | .error d => .error (.diverge d)
      | .ok out => .ok out

/-! ### Model Codec (spec §4.6) -/

/-- Modelled from the spec: the portable artifact — a header (format
version, factor dimension `k`, user count, item count, global bias)
followed by the bias vectors, the row-major flattened factor matrices,
and the identifier-to-row mappings. -/
structure Artifact where
  version : Nat
  k : Nat
  nUsers : Nat
  nItems : Nat
  globalBias : ℚ
  userBias : List ℚ
  itemBias : List ℚ
  userFactorsFlat : List ℚ
  itemFactorsFlat : List ℚ
  userIndex : List Nat
  itemIndex : List Nat
deriving DecidableEq, Repr

/-- Errors raised by `load` on a malformed artifact. -/
inductive CorruptArtifactError
  | badVersion
  | lengthMismatch
deriving DecidableEq, Repr

/-- The artifact format version this codec writes. -/
def artifactVersion : Nat := 1

/-- Modelled from the spec: `save(model, indices)` — serialize the model,
flattening each factor matrix row-major. -/
def save (m : FactorModel) (uIds iIds : List Nat) : Artifact :=
  ⟨artifactVersion, m.k, m.userBias.length, m.itemBias.length, m.globalBias,
   m.userBias, m.itemBias, m.userFactors.flatten, m.itemFactors.flatten,
   uIds, iIds⟩

/-- Rebuild `n` rows of width `k` from a row-major flattened matrix. -/
def unflatten (k : Nat) : Nat → List ℚ → List (List ℚ)
  | 0, _ => []
  | Nat.succ n, xs => xs.take k :: unflatten k n (xs.drop k)

/-- Modelled from the spec: `load(artifact)` — fails with
`CorruptArtifactError` if the header version is unrecognized or any
declared vector or matrix length does not match the header counts;
otherwise rebuilds the model and the index mappings. -/
def load (a : Artifact) :
    Except CorruptArtifactError (FactorModel × List Nat × List Nat) :=
  if a.version ≠ artifactVersion then .error .badVersion
  else if a.userBias.length ≠ a.nUsers ∨ a.itemBias.length ≠ a.nItems ∨
      a.userFactorsFlat.length ≠ a.nUsers * a.k ∨
      a.itemFactorsFlat.length ≠ a.nItems * a.k ∨
      a.userIndex.length ≠ a.nUsers ∨ a.itemIndex.length ≠ a.nItems then
    .error .lengthMismatch
  else
    .ok (⟨a.k, a.globalBias, a.userBias, a.itemBias,
          unflatten a.k a.nUsers a.userFactorsFlat,
          unflatten a.k a.nItems a.itemFactorsFlat⟩,
         a.userIndex, a.itemIndex)

/-! ### Embedding of the repository's own data layer

`src/generate_user_data.py` creates the `user_ratings` table with
`UNIQUE(user_id, product_id)` and inserts generated ratings with
`INSERT OR IGNORE`; `src/train_recommender.py` loads rows with
`SELECT user_id, product_id, rating FROM user_ratings WHERE rating IS
NOT NULL`. -/

/-- A row of the `user_ratings` table: the columns the recommender core
reads, with `rating` nullable at the SQL level. -/
structure URRow where
  user_id : Nat
  product_id : Nat
  rating : Option ℚ
deriving DecidableEq, Repr

/-- SQL-level errors of an insertion. -/
inductive SqlError
  | uniqueViolation
deriving DecidableEq, Repr

/-- Whether the table already holds a row for this (user, product) pair —
the condition the `UNIQUE(user_id, product_id)` constraint tests. -/
def hasPair (t : List URRow) (u p : Nat) : Bool :=
  t.any (fun r => r.user_id = u && r.product_id = p)

/-- SQLite insertion into `user_ratings` under its UNIQUE constraint:
a plain `INSERT` fails with a unique-constraint violation on a duplicate
(user_id, product_id) pair, while `INSERT OR IGNORE` (`orIgnore = true`,
the form `generate_ratings` uses) skips the conflicting row silently and
leaves the table unchanged. -/
def sqliteInsert (orIgnore : Bool) (t : List URRow) (r : URRow) :
    Except SqlError (List URRow) :=
  if hasPair t r.user_id r.product_id then
    if orIgnore then .ok t else .error .uniqueViolation
  else .ok (t ++ [r])

/-- The insertion `generate_ratings` performs: `INSERT OR IGNORE INTO
user_ratings ...`. -/
def insert_user_ratings (t : List URRow) (r : URRow) :
    Except SqlError (List URRow) :=
  sqliteInsert true t r

/-- The rating value `generate_ratings` produces:
`max(1, min(5, round(rating, 1)))` — rounded to one decimal and clamped
into the `[1, 5]` scale before it is ever inserted. -/
def generatedRating (x : ℚ) : ℚ :=
  max 1 (min 5 ((round (10 * x) : ℤ) / 10 : ℚ))

/-- No two rows of a table share a (user_id, product_id) pair — the
invariant the UNIQUE constraint maintains. -/
def pairsUnique (t : List URRow) : Prop :=
  t.Pairwise (fun r s => r.user_id ≠ s.user_id ∨ r.product_id ≠ s.product_id)

/-- Embedded from `load_ratings` in `src/train_recommender.py`:
`SELECT user_id, product_id, rating FROM user_ratings WHERE rating IS NOT
NULL` — keep the rows whose rating is not NULL and project the three
columns. -/
def load_ratings (t : List URRow) : List (Nat × Nat × Option ℚ) :=
  (t.filter (fun r => r.rating.isSome)).map
    (fun r => (r.user_id, r.product_id, r.rating))

/-! ### Concrete inputs used by witnesses and counterexamples -/

/-- A small concrete well-formed Factor Model: 2 users, 2 items, k = 2. -/
def mW : FactorModel :=
  ⟨2, 7/2, [1/10, -1/5], [1/4, 1/8],
   [[1/2, 1/3], [1/5, 1/7]], [[2/3, 1/9], [3/5, 4/7]]⟩

/-- Concrete external user identifiers for the codec witness. -/
def uIdsW : List Nat := [101, 202]

/-- Concrete external item identifiers for the codec witness. -/
def iIdsW : List Nat := [11, 22]

/-- A small concrete training configuration. -/
def cfgW : TrainConfig := ⟨2, 2, 1/20, 1/50, 1/50, 1/5, 42⟩

/-- A concrete indexed observation list: 2 users, 2 items, 4 ratings. -/
def obsW : List Obs := [⟨0, 0, 5⟩, ⟨0, 1, 1⟩, ⟨1, 0, 4⟩, ⟨1, 1, 2⟩]

/-- A configuration with a learning rate (50) far above any stable bound,
used to exhibit numeric divergence. -/
def divergeCfg : TrainConfig := ⟨10, 1, 50, 0, 0, 1/5, 42⟩

/-- A model one step away from overflow: its global bias already has
magnitude `2^1100`. -/
def bigModel : FactorModel := ⟨1, ((2 ^ 1100 : ℕ) : ℚ), [0], [0], [[0]], [[0]]⟩

/-- A one-epoch configuration with learning rate 50, used on `bigModel`. -/
def bigCfg : TrainConfig := ⟨1, 1, 50, 0, 0, 1/5, 0⟩

/-- The observation fed to `bigModel` in the divergence witness. -/
def bigObs : Obs := ⟨0, 0, 3⟩

/-- A rating row for the duplicate-insertion counterexample. -/
def dupRow : URRow := ⟨7, 9, some 5⟩

/-- A second rating row for the same (user, product) pair. -/
def dupRow2 : URRow := ⟨7, 9, some 3⟩

/-- A concrete `user_ratings` table holding one NULL and one non-NULL
rating. -/
def tW : List URRow := [⟨1, 2, none⟩, ⟨1, 3, some 4⟩]

/-! ### Helper lemmas -/

theorem dot_nil_left (ys : List ℚ) : dot [] ys = 0 := rfl

theorem dot_nil_right (xs : List ℚ) : dot xs [] = 0 := by
  simp [dot]

theorem getB_out {l : List ℚ} {i : Nat} (h : l.length ≤ i) : getB l i = 0 :=
  List.getD_eq_default _ _ h

theorem getF_out {l : List (List ℚ)} {i : Nat} (h : l.length ≤ i) :
    getF l i = [] :=
  List.getD_eq_default _ _ h

theorem shuffle_perm (xs : List α) (seed : Nat) :
    (shuffle xs seed).Perm xs := by
  unfold shuffle
  have h1 := List.perm_insertionSort
    (fun a b : Nat × α => a.1 ≤ b.1)
    ((xs.enum).map (fun p => (lcgStream seed p.1, p.2)))
  have h2 := h1.map (fun p : Nat × α => p.2)
  refine h2.trans ?_
  rw [List.map_map]
  have : ((fun p : Nat × α => p.2) ∘ fun p : Nat × α => (lcgStream seed p.1, p.2))
      = fun p : Nat × α => p.2 := rfl
  rw [this, List.enum_map_snd]

theorem flatten_length_uniform {k : Nat} :
    ∀ (rows : List (List ℚ)), (∀ r ∈ rows, r.length = k) →
      rows.flatten.length = rows.length * k
  | [], _ => by simp
  | r :: rows, h => by
    have hr : r.length = k := h r (List.mem_cons_self r rows)
    have ih := flatten_length_uniform rows (fun s hs => h s (List.mem_cons_of_mem r hs))
    simp only [List.flatten_cons, List.length_append, ih, List.length_cons, hr]
    ring

theorem unflatten_flatten {k : Nat} :
    ∀ (rows : List (List ℚ)), (∀ r ∈ rows, r.length = k) →
      unflatten k rows.length rows.flatten = rows
  | [], _ => rfl
  | r :: rows, h => by
    have hr : r.length = k := h r (List.mem_cons_self r rows)
    have ih := unflatten_flatten rows (fun s hs => h s (List.mem_cons_of_mem r hs))
    simp only [List.length_cons, List.flatten_cons, unflatten,
      List.take_left' hr, List.drop_left' hr, ih]

theorem firstNonFinite_some {xs : List ℚ} :
    ∀ {d : Nat}, firstNonFinite xs = some d → isFiniteQ (xs.getD d 0) = false := by
  induction xs with
  | nil => intro d h; simp [firstNonFinite] at h
  | cons x xs ih =>
    intro d h
    by_cases hx : isFiniteQ x
    · rw [firstNonFinite, if_pos hx] at h
      cases h3 : firstNonFinite xs with
      | none => rw [h3] at h; simp at h
      | some c =>
        rw [h3] at h
        simp only [Option.map] at h
        have hd : c + 1 = d := Option.some.inj h
        subst hd
        simpa using ih h3
    · rw [firstNonFinite, if_neg hx] at h
      have hd : (0 : Nat) = d := Option.some.inj h
      subst hd
      simpa using Bool.of_not_eq_true hx

theorem firstNonFinite_none {xs : List ℚ} :
    firstNonFinite xs = none → ∀ x ∈ xs, isFiniteQ x = true := by
  induction xs with
  | nil => intro _ x hx; exact absurd hx (List.not_mem_nil x)
  | cons y xs ih =>
    intro h x hx
    by_cases hy : isFiniteQ y
    · rw [firstNonFinite, if_pos hy] at h
      rcases List.mem_cons.mp hx with h1 | h1
      · subst h1; exact hy
      · refine ih ?_ x h1
        cases h3 : firstNonFinite xs with
        | none => rfl
        | some c => rw [h3] at h; simp at h
    · rw [firstNonFinite, if_neg hy] at h
      simp at h

theorem sgdStep_error {cfg : TrainConfig} {m : FactorModel} {o : Obs} {p : ParamRef}
    (h : sgdStep cfg m o = .error p) :
    isFiniteQ (scalarAt (sgdUpdate cfg m o) p) = false := by
  unfold sgdStep at h
  by_cases h1 : isFiniteQ (sgdUpdate cfg m o).globalBias
  · rw [if_pos h1] at h
    by_cases h2 : isFiniteQ (getB (sgdUpdate cfg m o).userBias o.u)
    · rw [if_pos h2] at h
      by_cases h3 : isFiniteQ (getB (sgdUpdate cfg m o).itemBias o.i)
      · rw [if_pos h3] at h
        cases h4 : firstNonFinite (getF (sgdUpdate cfg m o).userFactors o.u) with
        | some d =>
          rw [h4] at h
          have hp : ParamRef.userFactor o.u d = p := Except.error.inj h
          subst hp
          exact firstNonFinite_some h4
        | none =>
          rw [h4] at h
          cases h5 : firstNonFinite (getF (sgdUpdate cfg m o).itemFactors o.i) with
          | some d =>
            rw [h5] at h
            have hp : ParamRef.itemFactor o.i d = p := Except.error.inj h
            subst hp
            exact firstNonFinite_some h5
          | none => rw [h5] at h; exact absurd h (by simp)
      · rw [if_neg h3] at h
        have hp : ParamRef.itemBias o.i = p := Except.error.inj h
        subst hp
        simpa using Bool.of_not_eq_true h3
    · rw [if_neg h2] at h
      have hp : ParamRef.userBias o.u = p := Except.error.inj h
      subst hp
      simpa using Bool.of_not_eq_true h2
  · rw [if_neg h1] at h
    have hp : ParamRef.globalBias = p := Except.error.inj h
    subst hp
    simpa using Bool.of_not_eq_true h1

theorem sgdStep_ok {cfg : TrainConfig} {m m2 : FactorModel} {o : Obs}
    (h : sgdStep cfg m o = .ok m2) :
    m2 = sgdUpdate cfg m o ∧
    isFiniteQ m2.globalBias = true ∧
    isFiniteQ (getB m2.userBias o.u) = true ∧
    isFiniteQ (getB m2.itemBias o.i) = true ∧
    (∀ x ∈ getF m2.userFactors o.u, isFiniteQ x = true) ∧
    (∀ x ∈ getF m2.itemFactors o.i, isFiniteQ x = true) := by
  unfold sgdStep at h
  by_cases h1 : isFiniteQ (sgdUpdate cfg m o).globalBias
  · rw [if_pos h1] at h
    by_cases h2 : isFiniteQ (getB (sgdUpdate cfg m o).userBias o.u)
    · rw [if_pos h2] at h
      by_cases h3 : isFiniteQ (getB (sgdUpdate cfg m o).itemBias o.i)
      · rw [if_pos h3] at h
        cases h4 : firstNonFinite (getF (sgdUpdate cfg m o).userFactors o.u) with
        | some d => rw [h4] at h; exact absurd h (by simp)
        | none =>
          rw [h4] at h
          cases h5 : firstNonFinite (getF (sgdUpdate cfg m o).itemFactors o.i) with
          | some d => rw [h5] at h; exact absurd h (by simp)
          | none =>
            rw [h5] at h
            have hm : sgdUpdate cfg m o = m2 := Except.ok.inj h
            subst hm
            exact ⟨rfl, h1, h2, h3, firstNonFinite_none h4, firstNonFinite_none h5⟩
      · rw [if_neg h3] at h; exact absurd h (by simp)
    · rw [if_neg h2] at h; exact absurd h (by simp)
  · rw [if_neg h1] at h; exact absurd h (by simp)

theorem runObs_error {cfg : TrainConfig} {epoch : Nat} :
    ∀ {os : List Obs} {m : FactorModel} {idx0 : Nat} {info : DivergeInfo},
      runObs cfg epoch m os idx0 = .error info →
      info.epoch = epoch ∧ idx0 ≤ info.obsIdx ∧ info.obsIdx < idx0 + os.length ∧
      ∃ m2 o, sgdStep cfg m2 o = .error info.param := by
  intro os
  induction os with
  | nil => intro m idx0 info h; exact Except.noConfusion h
  | cons o os ih =>
    intro m idx0 info h
    have hred : runObs cfg epoch m (o :: os) idx0 =
        match sgdStep cfg m o with
        | .error p => .error ⟨p, epoch, idx0⟩
        | .ok m2 => runObs cfg epoch m2 os (idx0 + 1) := rfl
    rw [hred] at h
    cases h4 : sgdStep cfg m o with
    | error p =>
      rw [h4] at h
      have : DivergeInfo.mk p epoch idx0 = info := Except.error.inj h
      subst this
      exact ⟨rfl, le_rfl, by simp, m, o, h4⟩
    | ok m2 =>
      rw [h4] at h
      obtain ⟨he, hle, hlt, hw⟩ := ih h
      exact ⟨he, by omega, by simp only [List.length_cons]; omega, hw⟩

theorem runEpochs_error {cfg : TrainConfig} {trainObs heldout : List Obs} :
    ∀ {n : Nat} {m : FactorModel} {trace : List ℚ} {info : DivergeInfo},
      runEpochs cfg trainObs heldout n m trace = .error info →
      ∃ m2 o, sgdStep cfg m2 o = .error info.param := by
  intro n
  induction n with
  | zero => intro m trace info h; exact Except.noConfusion h
  | succ rem ih =>
    intro m trace info h
    have hred : runEpochs cfg trainObs heldout (Nat.succ rem) m trace =
        match runObs cfg (cfg.epochs - rem) m
            (shuffle trainObs (cfg.seed + (cfg.epochs - rem))) 0 with
        | .error info2 => .error info2
        | .ok m2 => runEpochs cfg trainObs heldout rem m2 (mseOf m2 heldout :: trace) := rfl
    rw [hred] at h
    cases h4 : runObs cfg (cfg.epochs - rem) m
        (shuffle trainObs (cfg.seed + (cfg.epochs - rem))) 0 with
    | error info2 =>
      rw [h4] at h
      have : info2 = info := Except.error.inj h
      subst this
      exact (runObs_error h4).2.2.2
    | ok m2 =>
      rw [h4] at h
      exact ih h

/-! ### Claim theorems -/

/-- C7: for every `user_index` and `item_index` within the bounds known at
training time, `predict(user_index, item_index)` equals `global_bias +
user_bias[user_index] + item_bias[item_index] +
dot(user_factors[user_index], item_factors[item_index])`. -/
theorem predict_in_bounds (m : FactorModel) (u i : Nat)
    (hu1 : u < m.userBias.length) (hu2 : u < m.userFactors.length)
    (hi1 : i < m.itemBias.length) (hi2 : i < m.itemFactors.length) :
    predict m u i = m.globalBias + m.userBias.get ⟨u, hu1⟩ +
      m.itemBias.get ⟨i, hi1⟩ +
      dot (m.userFactors.get ⟨u, hu2⟩) (m.itemFactors.get ⟨i, hi2⟩) := by
  unfold predict getB getF
  simp only [List.getD_eq_getElem _ _ hu1, List.getD_eq_getElem _ _ hi1,
    List.getD_eq_getElem _ _ hu2, List.getD_eq_getElem _ _ hi2,
    List.get_eq_getElem]

/-- Witness for C7 at a concrete in-bounds pair of the model `mW`. -/
theorem predict_in_bounds_witness :
    predict mW 1 0 = mW.globalBias + mW.userBias.get ⟨1, by decide⟩ +
      mW.itemBias.get ⟨0, by decide⟩ +
      dot (mW.userFactors.get ⟨1, by decide⟩) (mW.itemFactors.get ⟨0, by decide⟩) :=
  predict_in_bounds mW 1 0 (by decide) (by decide) (by decide) (by decide)

/-- C3: `predict` is total on all (user, item) index pairs (its type is
`ℚ`, no error path exists), and when `user_index` or `item_index` is
outside the bounds known at training time the result falls back to
`global_bias` plus the bias of the known side — the unseen side
contributes zero bias and a zero factor dot product. -/
theorem predict_cold_start (m : FactorModel) (u i : Nat) :
    (m.userBias.length ≤ u → m.userFactors.length ≤ u →
      predict m u i = m.globalBias + getB m.itemBias i) ∧
    (m.itemBias.length ≤ i → m.itemFactors.length ≤ i →
      predict m u i = m.globalBias + getB m.userBias u) ∧
    (m.userBias.length ≤ u → m.userFactors.length ≤ u →
      m.itemBias.length ≤ i → m.itemFactors.length ≤ i →
      predict m u i = m.globalBias) := by
  refine ⟨fun h1 h2 => ?_, fun h1 h2 => ?_, fun h1 h2 h3 h4 => ?_⟩
  · unfold predict
    rw [getB_out h1, getF_out h2, dot_nil_left]
    ring
  · unfold predict
    rw [getB_out h1, getF_out h2, dot_nil_right]
    ring
  · unfold predict
    rw [getB_out h1, getF_out h2, getB_out h3, getF_out h4, dot_nil_left]
    ring

/-- Witness for C3: the cold-start fallback of `mW` at the unseen user
index 5 against the known item index 0. -/
theorem predict_cold_start_witness :
    predict mW 5 0 = mW.globalBias + getB mW.itemBias 0 :=
  (predict_cold_start mW 5 0).1 (by decide) (by decide)

/-- C10: the loading step selects only rows whose rating is not NULL, so
every observation in the stream `load_ratings` hands to the Splitter and
Trainer carries a non-null rating value. -/
theorem load_ratings_not_null (t : List URRow) (x : Nat × Nat × Option ℚ)
    (h : x ∈ load_ratings t) : x.2.2 ≠ none := by
  unfold load_ratings at h
  rcases List.mem_map.mp h with ⟨r, hr, hx⟩
  have h2 : r.rating.isSome = true := by simpa using List.of_mem_filter hr
  subst hx
  exact Option.isSome_iff_ne_none.mp h2

/-- Witness for C10 on the concrete table `tW`, whose NULL row is
filtered out. -/
theorem load_ratings_not_null_witness :
    ((1, 3, some (4 : ℚ)) : Nat × Nat × Option ℚ).2.2 ≠ none :=
  load_ratings_not_null tW (1, 3, some 4) (by decide)

/-- C9: on every non-empty rating set the Evaluator computes its error
metrics from unclamped predictions by default, and clamps each prediction
to the rating scale before the error computation exactly when the
`clamped` flag is passed; both modes are available. -/
theorem evaluate_modes (m : FactorModel) (lo hi : ℚ) (rs : List Obs)
    (h : rs ≠ []) :
    evaluate m lo hi rs false =
      .ok ⟨((rs.map (fun o => (o.r - predict m o.u o.i) ^ 2)).sum) / rs.length,
           ((rs.map (fun o => |o.r - predict m o.u o.i|)).sum) / rs.length,
           rs.length⟩ ∧
    evaluate m lo hi rs true =
      .ok ⟨((rs.map (fun o => (o.r - clamp lo hi (predict m o.u o.i)) ^ 2)).sum)
             / rs.length,
           ((rs.map (fun o => |o.r - clamp lo hi (predict m o.u o.i)|)).sum)
             / rs.length,
           rs.length⟩ ∧
    evaluateDefault m lo hi rs = evaluate m lo hi rs false := by
  cases rs with
  | nil => exact absurd rfl h
  | cons r rs => exact ⟨rfl, rfl, rfl⟩

/-- Witness for C9 on the concrete model `mW` and observation list
`obsW`. -/
theorem evaluate_modes_witness :
    evaluate mW (1 : ℚ) 5 obsW false =
      .ok ⟨((obsW.map (fun o => (o.r - predict mW o.u o.i) ^ 2)).sum) / obsW.length,
           ((obsW.map (fun o => |o.r - predict mW o.u o.i|)).sum) / obsW.length,
           obsW.length⟩ ∧
    evaluate mW (1 : ℚ) 5 obsW true =
      .ok ⟨((obsW.map (fun o => (o.r - clamp 1 5 (predict mW o.u o.i)) ^ 2)).sum)
             / obsW.length,
           ((obsW.map (fun o => |o.r - clamp 1 5 (predict mW o.u o.i)|)).sum)
             / obsW.length,
           obsW.length⟩ ∧
    evaluateDefault mW (1 : ℚ) 5 obsW = evaluate mW (1 : ℚ) 5 obsW false :=
  evaluate_modes mW 1 5 obsW (by decide)

/-- C2: training is a pure function of the configuration (including the
seed) and the input observation sequences — no hidden global state — so
two independent runs on identical inputs return identical results, and in
particular bit-identical final global bias, user/item biases, and
user/item factor vectors. -/
theorem train_deterministic (cfg cfg2 : TrainConfig) (nU nU2 nI nI2 : Nat)
    (tr tr2 ho ho2 : List Obs)
    (hc : cfg2 = cfg) (hU : nU2 = nU) (hI : nI2 = nI) (ht : tr2 = tr)
    (hh : ho2 = ho) :
    trainModel cfg2 nU2 nI2 tr2 ho2 = trainModel cfg nU nI tr ho ∧
    ∀ m trace m2 trace2, trainModel cfg nU nI tr ho = .ok (m, trace) →
      trainModel cfg2 nU2 nI2 tr2 ho2 = .ok (m2, trace2) →
      m2.globalBias = m.globalBias ∧ m2.userBias = m.userBias ∧
      m2.itemBias = m.itemBias ∧ m2.userFactors = m.userFactors ∧
      m2.itemFactors = m.itemFactors := by
  subst hc hU hI ht hh
  refine ⟨rfl, ?_⟩
  intro m trace m2 trace2 h1 h2
  rw [h1] at h2
  have h3 : (m, trace) = (m2, trace2) := Except.ok.inj h2
  have h4 : m = m2 := congrArg Prod.fst h3
  subst h4
  exact ⟨rfl, rfl, rfl, rfl, rfl⟩

/-- Witness for C2: the two runs instantiated with literally equal
concrete inputs (`cfgW`, `obsW`). -/
theorem train_deterministic_witness :
    trainModel cfgW 2 2 obsW obsW = trainModel cfgW 2 2 obsW obsW ∧
    ∀ m trace m2 trace2, trainModel cfgW 2 2 obsW obsW = .ok (m, trace) →
      trainModel cfgW 2 2 obsW obsW = .ok (m2, trace2) →
      m2.globalBias = m.globalBias ∧ m2.userBias = m.userBias ∧
      m2.itemBias = m.itemBias ∧ m2.userFactors = m.userFactors ∧
      m2.itemFactors = m.itemFactors :=
  train_deterministic cfgW cfgW 2 2 2 2 obsW obsW obsW obsW rfl rfl rfl rfl rfl

/-- C4: `finalize()` fails with a `DataError` whenever the store is empty
or holds fewer than 2 distinct users or fewer than 2 distinct items, and
such degenerate input makes the whole pipeline fail with a data error
before any training happens. -/
theorem finalize_degenerate (raw : List RatingObs)
    (h : raw = [] ∨ (userIdsOf raw).length < 2 ∨ (itemIdsOf raw).length < 2) :
    (∃ e, finalize raw = .error e) ∧
    ∀ cfg : TrainConfig, ∃ e, trainPipeline cfg raw = .error (.data e) := by
  have h1 : ∃ e, finalize raw = .error e := by
    unfold finalize
    split_ifs with h1 h2 h3
    · exact ⟨_, rfl⟩
    · exact ⟨_, rfl⟩
    · exact ⟨_, rfl⟩
    · exfalso
      rcases h with h | h | h
      · exact h1 (by subst h; rfl)
      · exact h2 h
      · exact h3 h
  obtain ⟨e, he⟩ := h1
  refine ⟨⟨e, he⟩, fun cfg => ⟨e, ?_⟩⟩
  unfold trainPipeline
  rw [he]

/-- Witness for C4 at the empty store. -/
theorem finalize_degenerate_witness :
    (∃ e, finalize [] = .error e) ∧
    ∀ cfg : TrainConfig, ∃ e, trainPipeline cfg [] = .error (.data e) :=
  finalize_degenerate [] (Or.inl rfl)

/-- C5: a successful `split(observations, ratio, seed)` returns exactly
the first `(1-ratio)` fraction of the seeded pseudo-random permutation of
the observations as the training set and the remainder as the held-out
set (so together they are a permutation of the input), and equal seeds
with equal input orders always produce equal partitions. -/
theorem split_partition (xs xs2 : List Obs) (ratio : ℚ) (seed seed2 : Nat)
    (hx : xs2 = xs) (hs : seed2 = seed) :
    split xs2 ratio seed2 = split xs ratio seed ∧
    ∀ tr ho, split xs ratio seed = .ok (tr, ho) →
      tr = (shuffle xs seed).take (xs.length - heldoutCount xs.length ratio) ∧
      ho = (shuffle xs seed).drop (xs.length - heldoutCount xs.length ratio) ∧
      (tr ++ ho).Perm xs := by
  rw [hx, hs]
  refine ⟨rfl, ?_⟩
  intro tr ho h
  unfold split at h
  by_cases h0 : heldoutCount xs.length ratio = 0
  · rw [if_pos h0] at h
    exact Except.noConfusion h
  · rw [if_neg h0] at h
    have h2 : ((shuffle xs seed).take (xs.length - heldoutCount xs.length ratio),
               (shuffle xs seed).drop (xs.length - heldoutCount xs.length ratio))
        = (tr, ho) := Except.ok.inj h
    have hT : (shuffle xs seed).take (xs.length - heldoutCount xs.length ratio) = tr :=
      congrArg Prod.fst h2
    have hH : (shuffle xs seed).drop (xs.length - heldoutCount xs.length ratio) = ho :=
      congrArg Prod.snd h2
    refine ⟨hT.symm, hH.symm, ?_⟩
    rw [← hT, ← hH, List.take_append_drop]
    exact shuffle_perm xs seed

/-- Witness for C5 on the concrete observation list `obsW` with ratio 1/4
and seed 3. -/
theorem split_partition_witness :
    split obsW (1/4 : ℚ) 3 = split obsW (1/4 : ℚ) 3 ∧
    ∀ tr ho, split obsW (1/4 : ℚ) 3 = .ok (tr, ho) →
      tr = (shuffle obsW 3).take (obsW.length - heldoutCount obsW.length (1/4)) ∧
      ho = (shuffle obsW 3).drop (obsW.length - heldoutCount obsW.length (1/4)) ∧
      (tr ++ ho).Perm obsW :=
  split_partition obsW obsW (1/4) 3 3 rfl rfl

/-- C8 counterexample: the repository inserts ratings with `INSERT OR
IGNORE` under the `UNIQUE(user_id, product_id)` constraint, so adding an
observation for a (user_id, item_id) pair that is already present does
NOT fail with an error — the row is silently skipped and the table is
returned unchanged. -/
theorem add_duplicate_not_error :
    insert_user_ratings [dupRow] dupRow2 = .ok [dupRow] ∧
    ∀ e, insert_user_ratings [dupRow] dupRow2 ≠ .error e := by
  have h : insert_user_ratings [dupRow] dupRow2 = .ok [dupRow] := by rfl
  exact ⟨h, fun e he => by rw [h] at he; exact Except.noConfusion he⟩

/-- C8 amended: inserting a rating row whose (user_id, product_id) pair
is already present silently leaves the table unchanged (no error), a
fresh pair is appended, the at-most-one-observation-per-pair invariant is
preserved, and generated ratings are clamped into the `[1, 5]` scale
rather than rejected. -/
theorem add_or_ignore_spec :
    (∀ t r, hasPair t r.user_id r.product_id = true →
       insert_user_ratings t r = .ok t) ∧
    (∀ t r, hasPair t r.user_id r.product_id = false →
       insert_user_ratings t r = .ok (t ++ [r])) ∧
    (∀ t r t2, pairsUnique t → insert_user_ratings t r = .ok t2 →
       pairsUnique t2) ∧
    (∀ x : ℚ, 1 ≤ generatedRating x ∧ generatedRating x ≤ 5) := by
  have part1 : ∀ t r, hasPair t r.user_id r.product_id = true →
      insert_user_ratings t r = .ok t := by
    intro t r h
    unfold insert_user_ratings sqliteInsert
    rw [if_pos h]
    rfl
  have part2 : ∀ t r, hasPair t r.user_id r.product_id = false →
      insert_user_ratings t r = .ok (t ++ [r]) := by
    intro t r h
    unfold insert_user_ratings sqliteInsert
    rw [if_neg (by simp [h])]
  refine ⟨part1, part2, ?_, ?_⟩
  · intro t r t2 hu h
    by_cases hp : hasPair t r.user_id r.product_id = true
    · rw [part1 t r hp] at h
      have h2 : t = t2 := Except.ok.inj h
      subst h2
      exact hu
    · have hp2 : hasPair t r.user_id r.product_id = false :=
        Bool.eq_false_iff.mpr hp
      rw [part2 t r hp2] at h
      have h2 : t ++ [r] = t2 := Except.ok.inj h
      subst h2
      rw [pairsUnique, List.pairwise_append]
      refine ⟨hu, List.pairwise_singleton _ _, ?_⟩
      intro a ha b hb
      have hb2 : b = r := List.mem_singleton.mp hb
      subst hb2
      simp only [hasPair, List.any_eq_false] at hp2
      by_cases h3 : a.user_id = b.user_id
      · refine Or.inr fun h4 => ?_
        exact hp2 a ha (by simp [h3, h4])
      · exact Or.inl h3
  · intro x
    exact ⟨le_max_left 1 _, max_le (by norm_num) (min_le_left 5 _)⟩

/-- Witness for C8's amended claim: a duplicate insertion is silently
skipped, a fresh insertion is appended, and a concrete generated rating
obeys the scale. -/
theorem add_or_ignore_spec_witness :
    insert_user_ratings [dupRow] dupRow2 = .ok [dupRow] ∧
    insert_user_ratings [] dupRow = .ok ([] ++ [dupRow]) ∧
    (1 : ℚ) ≤ generatedRating (7/2) :=
  ⟨add_or_ignore_spec.1 [dupRow] dupRow2 (by rfl),
   add_or_ignore_spec.2.1 [] dupRow (by rfl),
   (add_or_ignore_spec.2.2.2 (7/2)).1⟩

/-- C1: loading the artifact produced by saving a (well-formed, as every
trained model is) Factor Model restores exactly the stored rational
values — the loaded model equals the saved one field by field, so its
prediction for every (user, item) pair present at save time is identical
to the original model's. -/
theorem save_load_roundtrip (m : FactorModel) (uIds iIds : List Nat)
    (h1 : m.userFactors.length = m.userBias.length)
    (h2 : ∀ r ∈ m.userFactors, r.length = m.k)
    (h3 : m.itemFactors.length = m.itemBias.length)
    (h4 : ∀ r ∈ m.itemFactors, r.length = m.k)
    (h5 : uIds.length = m.userBias.length)
    (h6 : iIds.length = m.itemBias.length) :
    load (save m uIds iIds) = .ok (m, uIds, iIds) ∧
    ∀ m2 ids2 u i, load (save m uIds iIds) = .ok (m2, ids2) →
      predict m2 u i = predict m u i := by
  have hfl1 : m.userFactors.flatten.length = m.userBias.length * m.k := by
    rw [flatten_length_uniform m.userFactors h2, h1]
  have hfl2 : m.itemFactors.flatten.length = m.itemBias.length * m.k := by
    rw [flatten_length_uniform m.itemFactors h4, h3]
  have hu : unflatten m.k m.userBias.length m.userFactors.flatten = m.userFactors := by
    rw [← h1]
    exact unflatten_flatten m.userFactors h2
  have hi : unflatten m.k m.itemBias.length m.itemFactors.flatten = m.itemFactors := by
    rw [← h3]
    exact unflatten_flatten m.itemFactors h4
  have hload : load (save m uIds iIds) = .ok (m, uIds, iIds) := by
    unfold load
    rw [if_neg (by simp [save, artifactVersion])]
    rw [if_neg (by simp [save, hfl1, hfl2, h5, h6])]
    show Except.ok ((⟨m.k, m.globalBias, m.userBias, m.itemBias,
        unflatten m.k m.userBias.length m.userFactors.flatten,
        unflatten m.k m.itemBias.length m.itemFactors.flatten⟩ : FactorModel),
        uIds, iIds) = _
    rw [hu, hi]
  refine ⟨hload, ?_⟩
  intro m2 ids2 u i hl
  rw [hload] at hl
  have h7 : ((m, uIds, iIds) : FactorModel × List Nat × List Nat) = (m2, ids2) :=
    Except.ok.inj hl
  have h8 : m = m2 := congrArg Prod.fst h7
  rw [← h8]

/-- Witness for C1 on the concrete model `mW` with identifier lists
`uIdsW`, `iIdsW`. -/
theorem save_load_roundtrip_witness :
    load (save mW uIdsW iIdsW) = .ok (mW, uIdsW, iIdsW) ∧
    ∀ m2 ids2 u i, load (save mW uIdsW iIdsW) = .ok (m2, ids2) →
      predict m2 u i = predict mW u i :=
  save_load_roundtrip mW uIdsW iIdsW (by decide) (by decide) (by decide)
    (by decide) (by decide) (by decide)

set_option maxRecDepth 100000 in
set_option exponentiation.threshold 1200 in
/-- C6: a checked SGD step that reports a parameter reports one whose
freshly updated scalar is non-finite; a step that succeeds returns the
unclamped update itself (divergence is never clamped away) with every
updated scalar finite; a training run that fails carries in its
diagnostic the epoch, observation index, and a parameter whose updated
scalar was non-finite at an actual failed step; and the concrete run with
learning rate 50 on `obsW` raises the divergence error at epoch 2,
observation index 3, parameter `itemFactor 0 0` — instead of silently
producing non-finite predictions. -/
theorem numeric_divergence :
    (∀ cfg m o p, sgdStep cfg m o = .error p →
       isFiniteQ (scalarAt (sgdUpdate cfg m o) p) = false) ∧
    (∀ cfg m o m2, sgdStep cfg m o = .ok m2 →
       m2 = sgdUpdate cfg m o ∧ isFiniteQ m2.globalBias = true ∧
       isFiniteQ (getB m2.userBias o.u) = true ∧
       isFiniteQ (getB m2.itemBias o.i) = true ∧
       (∀ x ∈ getF m2.userFactors o.u, isFiniteQ x = true) ∧
       (∀ x ∈ getF m2.itemFactors o.i, isFiniteQ x = true)) ∧
    (∀ cfg nU nI trObs ho info, trainModel cfg nU nI trObs ho = .error info →
       ∃ m2 o, sgdStep cfg m2 o = .error info.param ∧
         isFiniteQ (scalarAt (sgdUpdate cfg m2 o) info.param) = false) ∧
    trainModel divergeCfg 2 2 obsW [] = .error ⟨.itemFactor 0 0, 2, 3⟩ := by
  refine ⟨fun cfg m o p h => sgdStep_error h,
          fun cfg m o m2 h => sgdStep_ok h,
          fun cfg nU nI trObs ho info h => ?_, ?_⟩
  · have h2 : runEpochs cfg trObs ho cfg.epochs
        (initModel cfg nU nI trObs) [] = .error info := h
    obtain ⟨m2, o, h3⟩ := runEpochs_error h2
    exact ⟨m2, o, h3, sgdStep_error h3⟩
  · with_unfolding_all rfl

set_option maxRecDepth 100000 in
set_option exponentiation.threshold 1200 in
/-- Witness for C6: a concrete step from `bigModel` whose updated global
bias overflows, reported as the offending parameter. -/
theorem numeric_divergence_witness :
    isFiniteQ (scalarAt (sgdUpdate bigCfg bigModel bigObs) ParamRef.globalBias)
      = false :=
  numeric_divergence.1 bigCfg bigModel bigObs ParamRef.globalBias
    (by with_unfolding_all rfl)

end Recommender
